import Mathlib

/-!
Verification development for the monorepo's browser game-loading and
session-tracking core.  The definitions below are a shallow embedding of the
TypeScript sources:

* `SessionManager` (session/SessionManager.ts): a client-side play-session
  tracker persisting an in-flight session and a capped rolling history to
  local storage.
* `Game.validateRules`, `GameValidator`, `GameLoader`, `GameSelector`
  (GameSelector.ts of the gaming hub app): the rule-gated game loading
  orchestrator.
* `NetworkConnectivityRule` in both its hub-app variant (always passes) and
  its core-gaming-sdk variant (probes the network).

Time (`Date.now()`), randomness (`Math.random()...`), the DOM window object
and network outcomes are passed in explicitly as oracle arguments; JavaScript
numbers that only ever hold integers are modelled as `Int`/`Nat`, with
`Math.floor` of an integer division rendered as `Int.fdiv`.
-/

set_option maxHeartbeats 1000000

namespace GameSpec

/-- Status of a `GameSession` (`'active'|'completed'|'abandoned'|'paused'`). -/
inductive SessionStatus where
  | active
  | completed
  | abandoned
  | paused
deriving DecidableEq, Repr

/-- Event types of `GameEvent.type`
(`'start'|'pause'|'resume'|'end'|'correct'|'incorrect'|'custom'`). -/
inductive EventType where
  | start
  | pause
  | resume
  | end_
  | correct
  | incorrect
  | custom
deriving DecidableEq, Repr

/-- The `data` payloads actually attached by `SessionManager`:
`{ points }` on correct/incorrect events and `{ finalStatus }` on end events. -/
inductive EventData where
  | points (p : Int)
  | finalStatus (s : SessionStatus)
deriving DecidableEq, Repr

/-- Model of `GameEvent { type, timestamp, data? }`. -/
structure GameEvent where
  type : EventType
  timestamp : Nat
  data : Option EventData := none
deriving DecidableEq, Repr

/-- Model of `GameSession`.  Fields that `startSession` always initialises
(`score`, `maxScore`, `streak`, `attempts`, `correctAnswers`,
`totalQuestions`, `duration`) are modelled as non-optional; the `|| 0`
fallbacks in the source are identities on sessions created by
`startSession`.  `endTime` is only set by `endSession` and stays `none`
before that. -/
structure GameSession where
  sessionId : String
  gameId : String
  tenantId : Option String := none
  playerId : String
  startTime : Nat
  endTime : Option Nat := none
  status : SessionStatus
  score : Int
  maxScore : Int
  streak : Nat
  attempts : Nat
  correctAnswers : Nat
  totalQuestions : Nat
  difficulty : Option String := none
  duration : Int
  events : List GameEvent
deriving DecidableEq, Repr

/-- The state of one `SessionManager` together with the slice of
`localStorage` it touches: `currentSession`, the in-flight-session key
`gaming_session_<userId>` and the history key `gaming_history_<userId>`.
A single user id is modelled, so the keys collapse to two slots. -/
structure ManagerState where
  currentSession : Option GameSession := none
  sessionSlot : Option GameSession := none
  historySlot : List GameSession := []
deriving DecidableEq, Repr

namespace SessionManager

/-- Model of `persistSession`:
`localStorage.setItem(key, JSON.stringify(currentSession))`.
Every caller guards on `currentSession` being non-null. -/
def persistSession (m : ManagerState) : ManagerState :=
  { m with sessionSlot := m.currentSession }

/-- Model of `startSession(gameId, tenantId?, difficulty?)`.  Here `now` is `Date.now()`
and `rand` models `Math.random().toString(36).substr(2,9)`. -/
def startSession (m : ManagerState) (gameId : String) (tenantId : Option String)
    (difficulty : Option String) (now : Nat) (rand : String) : ManagerState :=
  let sessionId := "session_" ++ toString now ++ "_" ++ rand
  persistSession
    { m with
      currentSession := some
        { sessionId := sessionId
          gameId := gameId
          tenantId := tenantId
          playerId := "player"
          startTime := now
          status := .active
          score := 0
          maxScore := 0
          streak := 0
          attempts := 0
          correctAnswers := 0
          totalQuestions := 0
          difficulty := difficulty
          duration := 0
          events := [{ type := .start, timestamp := now }] } }

/-- Model of `updateScore(points, isCorrect)`. -/
def updateScore (m : ManagerState) (points : Int) (isCorrect : Bool)
    (now : Nat) : ManagerState :=
  match m.currentSession with
  | none => m
  | some s =>
      let score := s.score + points
      let s :=
        { s with
          score := score
          maxScore := max s.maxScore score
          streak := if isCorrect then s.streak + 1 else 0
          correctAnswers := if isCorrect then s.correctAnswers + 1 else s.correctAnswers
          attempts := s.attempts + 1
          events := s.events ++
            [{ type := if isCorrect then .correct else .incorrect
               timestamp := now
               data := some (.points points) }] }
      persistSession { m with currentSession := some s }

/-- Model of `pauseSession()`. -/
def pauseSession (m : ManagerState) (now : Nat) : ManagerState :=
  match m.currentSession with
  | none => m
  | some s =>
      let s :=
        { s with
          status := SessionStatus.paused
          events := s.events ++ [{ type := .pause, timestamp := now }] }
      persistSession { m with currentSession := some s }

/-- Model of `resumeSession()`. -/
def resumeSession (m : ManagerState) (now : Nat) : ManagerState :=
  match m.currentSession with
  | none => m
  | some s =>
      let s :=
        { s with
          status := SessionStatus.active
          events := s.events ++ [{ type := .resume, timestamp := now }] }
      persistSession { m with currentSession := some s }

/-- The status argument of `endSession` (`'completed'|'abandoned'`). -/
inductive EndStatus where
  | completed
  | abandoned
deriving DecidableEq, Repr

/-- Injection of an `EndStatus` into `SessionStatus`. -/
def EndStatus.toStatus : EndStatus → SessionStatus
  | .completed => .completed
  | .abandoned => .abandoned

/-- The `while (history.length > 200) history.shift();` loop of
`saveToHistory`. -/
def capHistory (h : List GameSession) : List GameSession :=
  if h.length > 200 then capHistory h.tail else h
termination_by h.length
decreasing_by
  cases h with
  | nil => simp at *
  | cons a t => simp

/-- Model of `saveToHistory()`: push the current session (if any) onto the stored
history, then evict from the front down to 200 entries. -/
def saveToHistory (m : ManagerState) : ManagerState :=
  let h :=
    match m.currentSession with
    | some s => m.historySlot ++ [s]
    | none => m.historySlot
  { m with historySlot := capHistory h }

/-- The record mutations `endSession` performs on the current session
before saving it: set `endTime`, `status`,
`duration = Math.floor((endTime - startTime) / 1000)` and append the
`end` event. -/
def finalizeSession (s : GameSession) (status : EndStatus) (now : Nat) : GameSession :=
  { s with
    endTime := some now
    status := status.toStatus
    duration := Int.fdiv ((now : Int) - (s.startTime : Int)) 1000
    events := s.events ++
      [{ type := .end_, timestamp := now
         data := some (.finalStatus status.toStatus) }] }

/-- Model of `endSession(status = 'completed')`: finalize the current session,
best-effort post it to the server (a pure no-op here), save it to
history and clear the current session.  Note that it does **not** call
`persistSession`, so `sessionSlot` keeps its previous contents. -/
def endSession (m : ManagerState) (status : EndStatus) (now : Nat) : ManagerState :=
  match m.currentSession with
  | none => m
  | some s =>
      let s := finalizeSession s status now
      let m := saveToHistory { m with currentSession := some s }
      { m with currentSession := none }

/-- Model of `getCurrentSession()`. -/
def getCurrentSession (m : ManagerState) : Option GameSession :=
  m.currentSession

/-- Model of `loadPersistedSession()`, run by the constructor: reads the
in-flight-session key and adopts the stored session unless it is 24 hours
or older.  The subtraction is over `Int`, matching JavaScript number
arithmetic. -/
def loadPersistedSession (m : ManagerState) (now : Nat) : ManagerState :=
  match m.sessionSlot with
  | some p =>
      if (now : Int) - (p.startTime : Int) < 24 * 60 * 60 * 1000 then
        { m with currentSession := some p }
      else
        m
  | none => m

/-- Constructing a `new SessionManager(userId)` over existing storage:
the fresh instance starts with a null current session, then runs
`loadPersistedSession`. -/
def newManager (m : ManagerState) (now : Nat) : ManagerState :=
  loadPersistedSession { m with currentSession := none } now

/-- One externally drivable operation on the session-tracking subsystem,
with its `Date.now()` reading. -/
inductive Op where
  | newManager (now : Nat)
  | startSession (gameId : String) (tenantId : Option String)
      (difficulty : Option String) (now : Nat) (rand : String)
  | updateScore (points : Int) (isCorrect : Bool) (now : Nat)
  | pauseSession (now : Nat)
  | resumeSession (now : Nat)
  | endSession (status : EndStatus) (now : Nat)
deriving DecidableEq, Repr

/-- Interpretation of one operation. -/
def applyOp (m : ManagerState) : Op → ManagerState
  | .newManager now => newManager m now
  | .startSession gameId tenantId difficulty now rand =>
      startSession m gameId tenantId difficulty now rand
  | .updateScore points isCorrect now => updateScore m points isCorrect now
  | .pauseSession now => pauseSession m now
  | .resumeSession now => resumeSession m now
  | .endSession status now => endSession m status now

/-- Running a sequence of operations from empty storage with a fresh
manager. -/
def run (ops : List Op) : ManagerState :=
  ops.foldl applyOp {}

/-- Specification-side bookkeeping (not part of the source): the finalized
session records a run produces, in order.  `endSession` contributes one
record whenever a current session exists; no other operation finalizes a
session. -/
def endedRecords : ManagerState → List Op → List GameSession
  | _, [] => []
  | m, op :: ops =>
      let rest := endedRecords (applyOp m op) ops
      match op, m.currentSession with
      | .endSession status now, some s => finalizeSession s status now :: rest
      | _, _ => rest

/-- A status an in-flight session copy may carry. -/
def liveStatus (st : SessionStatus) : Prop :=
  st = .active ∨ st = .paused

/-- The terminal statuses. -/
def terminalStatus (st : SessionStatus) : Prop :=
  st = .completed ∨ st = .abandoned

instance : DecidablePred liveStatus := fun st => by
  unfold liveStatus; infer_instance

instance : DecidablePred terminalStatus := fun st => by
  unfold terminalStatus; infer_instance

/-- The status edges allowed by the spec's transition diagram
`active → {paused ⇄ active} → {completed|abandoned}`; equal statuses mean
"no transition happened". -/
def statusEdge (a b : SessionStatus) : Prop :=
  a = b ∨
  (a = .active ∧ b = .paused) ∨
  (a = .paused ∧ b = .active) ∨
  (liveStatus a ∧ terminalStatus b)

instance (a b : SessionStatus) : Decidable (statusEdge a b) := by
  unfold statusEdge; infer_instance

/-- The storage/state invariant maintained by every operation: in-flight
copies (current session and persisted snapshot) are never terminal,
history records are always terminal, and the history is capped at 200. -/
def Inv (m : ManagerState) : Prop :=
  (∀ s, m.currentSession = some s → liveStatus s.status) ∧
  (∀ s, m.sessionSlot = some s → liveStatus s.status) ∧
  (∀ r, r ∈ m.historySlot → terminalStatus r.status) ∧
  m.historySlot.length ≤ 200

/-- The concrete session record `startSession` creates at time 1000 with
random suffix `"r"` for game `"g"`; used as an explicit input in
witnesses. -/
def sampleSession : GameSession :=
  { sessionId := "session_1000_r"
    gameId := "g"
    playerId := "player"
    startTime := 1000
    status := .active
    score := 0
    maxScore := 0
    streak := 0
    attempts := 0
    correctAnswers := 0
    totalQuestions := 0
    duration := 0
    events := [{ type := .start, timestamp := 1000 }] }

end SessionManager

/-! ### Rule engine and validator (GameSelector.ts of the hub app) -/

/-- Outcome of one rule's `validate(game)` call: the promise resolves to a
boolean, or rejects/throws with an error message. -/
inductive RuleOutcome where
  | ok (value : Bool)
  | throws (msg : String)
deriving DecidableEq, Repr

/-- A rule attached to a game, abstracted by its behaviour on that game:
the `validate` outcome, `getErrorMessage()`, and `constructor.name`. -/
structure GameLoadRule where
  outcome : RuleOutcome
  errorMessage : String
  ctorName : String
deriving DecidableEq, Repr

/-- The `for (const rule of this.rules)` loop of `Game.validateRules`:
each rule resolving `false` pushes its error message, each throwing rule
pushes one `Exception in <name>: <msg>` entry, and the loop always
continues to the next rule. -/
def runRulesLoop (errors : List String) : List GameLoadRule → List String
  | [] => errors
  | r :: rs =>
      match r.outcome with
      | .ok true => runRulesLoop errors rs
      | .ok false => runRulesLoop (errors ++ [r.errorMessage]) rs
      | .throws msg =>
          runRulesLoop (errors ++ ["Exception in " ++ r.ctorName ++ ": " ++ msg]) rs

/-- The `{valid, errors}` object returned by validation. -/
structure Verdict where
  valid : Bool
  errors : List String
deriving DecidableEq, Repr

/-- Model of `Game.validateRules()`: run every attached rule sequentially and
return `{ valid: errors.length === 0, errors }`.  The function is total,
mirroring the fact that the promise always resolves (every per-rule
exception is caught inside the loop). -/
def validateRules (rules : List GameLoadRule) : Verdict :=
  let errors := runRulesLoop [] rules
  { valid := errors.length == 0, errors := errors }

/-- The per-rule error entry `Game.validateRules` records, `none` for a
passing rule.  Used to characterise the accumulated error list. -/
def ruleErrorEntry (r : GameLoadRule) : Option String :=
  match r.outcome with
  | .ok true => none
  | .ok false => some r.errorMessage
  | .throws msg => some ("Exception in " ++ r.ctorName ++ ": " ++ msg)

/-- The abstract `Game` class: name, base URL, emoji and the attached rule
list (three defaults at construction, more via `addRule`). -/
structure Game where
  name : String
  baseUrl : String
  emoji : String
  rules : List GameLoadRule
deriving DecidableEq, Repr

/-- Model of `getDisplayName()`: `name.charAt(0).toUpperCase() + name.slice(1)`. -/
def displayNameOf (name : String) : String :=
  match name.data with
  | [] => ""
  | c :: cs => String.mk (c.toUpper :: cs)

/-- The three rules attached by the `Game` constructor.  The browser
compatibility rule's result depends on the host environment (`browserOk`
oracle); the hub app's network connectivity rule and resource rule both
resolve `true` unconditionally. -/
def defaultRules (browserOk : Bool) : List GameLoadRule :=
  [ { outcome := .ok browserOk
      errorMessage := "Browser does not support required features"
      ctorName := "BrowserCompatibilityRule" },
    { outcome := .ok true
      errorMessage := "Network connectivity check skipped"
      ctorName := "NetworkConnectivityRule" },
    { outcome := .ok true
      errorMessage := "Game resources not available"
      ctorName := "GameResourceRule" } ]

/-- The hub app's `NetworkConnectivityRule.validate`: skips the network
probe entirely (`return true` on both the normal and the catch path). -/
def hubConnectivityValidate (_game : Game) : Bool :=
  true

namespace Sdk

/-- The network outcomes seen by the core-gaming-sdk variant of
`NetworkConnectivityRule.validate`: the primary no-cors HEAD fetch of
`${baseUrl}/test-connectivity.txt` either resolves or throws, and the
fallback fetch of the connectivity-test URL either resolves (with
`response.ok`) or throws. -/
structure ConnectivityEnv where
  primary : Except String Unit
  fallback : Except String Bool
deriving Repr

/-- The core-gaming-sdk `NetworkConnectivityRule.validate`: `true` when the
primary fetch resolves; otherwise `fallbackConnectivityCheck()`, which
returns `response.ok` when the fallback fetch resolves and `true` when it
throws. -/
def connectivityValidate (env : ConnectivityEnv) : Bool :=
  match env.primary with
  | .ok _ => true
  | .error _ =>
      match env.fallback with
      | .ok okFlag => okFlag
      | .error _ => true

end Sdk

/-! ### Bundle loader and orchestrator (GameSelector.ts of the hub app) -/

/-- Whether the injected script tag fires `onload` or `onerror`. -/
inductive ScriptOutcome where
  | onload
  | onerror
deriving DecidableEq, Repr

/-- The script request `GameLoader.loadGame` issues: the `src` string, and
the integer timestamp embedded as its `t` query parameter. -/
structure ScriptRequest where
  url : String
  t : Nat
deriving DecidableEq, Repr

/-- The manifest URL
`` `${this.s3BaseUrl}/${game.getName()}/load-app-scripts.js?t=${Date.now()}` ``.
Note it is built from the **loader's** `s3BaseUrl`, not from the game's
own `baseUrl`. -/
def buildScriptUrl (s3BaseUrl gameName : String) (now : Nat) : String :=
  s3BaseUrl ++ "/" ++ gameName ++ "/load-app-scripts.js?t=" ++ toString now

namespace GameLoader

/-- Model of `GameLoader.loadGame(game, container)`: inject a script tag for the
manifest URL; the promise resolves on `onload` and rejects on `onerror`
with `` `Failed to load ${game.getName()}` ``.  `now` is the `Date.now()`
reading at call time. -/
def loadGame (s3BaseUrl : String) (game : Game) (now : Nat)
    (outcome : ScriptOutcome) : ScriptRequest × Except String Unit :=
  let url := buildScriptUrl s3BaseUrl game.name now
  ({ url := url, t := now },
    match outcome with
    | .onload => .ok ()
    | .onerror => .error ("Failed to load " ++ game.name))

end GameLoader

/-- The hub metadata `createGameFromHubData` receives
(`gameData.name`, `gameData.id`, `gameData.emoji`, ...). -/
structure HubGameData where
  name : Option String
  id : String
  emoji : Option String
deriving DecidableEq, Repr

/-- Model of `GameSelector.createGameFromHubData(gameData)`: the synthesized
descriptor's `baseUrl` is `` `${this.s3BaseUrl}/${gameName}` `` — the S3
base **plus the game name**. -/
def createGameFromHubData (s3BaseUrl : String) (browserOk : Bool)
    (gameData : HubGameData) : Game :=
  let gameName := gameData.name.getD gameData.id
  { name := gameName
    baseUrl := s3BaseUrl ++ "/" ++ gameName
    emoji := gameData.emoji.getD "🎮"
    rules := defaultRules browserOk }

/-- An object stored somewhere on `window`; only its identity matters to
the orchestrator. -/
structure WinHandle where
  id : Nat
deriving DecidableEq, Repr

/-- The runtime handle `findGameInstance` returns: either an object
discovered on the window, or the synthetic mock instance it constructs
(freshly allocated at each call). -/
inductive RuntimeHandle where
  | discovered (h : WinHandle)
  | mockFor (displayName : String)
deriving DecidableEq, Repr

/-- JavaScript `===` on handles: two window-discovered handles are
identical iff they are the same stored object; a mock is freshly allocated
by each `findGameInstance` call, so it is never identical to a previously
stored handle. -/
def jsIdentical : RuntimeHandle → RuntimeHandle → Bool
  | .discovered a, .discovered b => a == b
  | _, _ => false

/-- The five lifecycle methods of a runtime handle. -/
inductive LifecycleAction where
  | start
  | pause
  | resume
  | restart
  | end_
deriving DecidableEq, Repr

/-- The method surface of the synthetic mock handle: every lifecycle
method is present (`some`) and its body only logs, so calling it returns
normally (`Except.ok`). -/
def mockMethod (_a : LifecycleAction) : Option (Except String Unit) :=
  some (.ok ())

/-- Looking up and invoking a lifecycle method on a runtime handle:
`none` when the method is absent, `some (error …)` when invoking it
throws.  The behaviour of window-discovered objects is unknown and
supplied by the `methodsOracle`; the mock's methods are fixed by
`mockMethod`. -/
def RuntimeHandle.methodOf
    (methodsOracle : WinHandle → LifecycleAction → Option (Except String Unit)) :
    RuntimeHandle → LifecycleAction → Option (Except String Unit)
  | .discovered h, a => methodsOracle h a
  | .mockFor _, a => mockMethod a

/-- The slice of `window` that `findGameInstance` inspects:
`window[<gameName> + 'Game']` bindings and the optional shared
`window.gameInstances` map.  `none` stands for an absent (or falsy)
binding. -/
structure WindowState where
  globalBindings : String → Option WinHandle
  gameInstances : Option (String → Option WinHandle)

namespace GameSelector

/-- Model of `GameSelector.findGameInstance(game)`: first-match-wins priority over
`window[name + 'Game']`, then `window.gameInstances[name]`, else a fresh
mock instance. -/
def findGameInstance (w : WindowState) (game : Game) : RuntimeHandle :=
  match w.globalBindings (game.name ++ "Game") with
  | some h => .discovered h
  | none =>
      match w.gameInstances with
      | some insts =>
          match insts game.name with
          | some h => .discovered h
          | none => .mockFor (displayNameOf game.name)
      | none => .mockFor (displayNameOf game.name)

/-- The orchestrator state the claims observe: the stored current game,
the stored handle, and the handle published to
`window.currentGameInstance`. -/
structure SelectorState where
  s3BaseUrl : String
  currentGame : Option Game := none
  currentGameInstance : Option RuntimeHandle := none
  windowCurrentGameInstance : Option RuntimeHandle := none
deriving DecidableEq, Repr

/-- The externally visible side effects of one `loadGame` call, in
order. -/
inductive Effect where
  | renderValidationError (displayName : String) (errors : List String)
  | renderLoadingUI (name : String)
  | requestScript (req : ScriptRequest)
  | renderLoadError (displayName : String)
  | addGameControls (name : String)
deriving DecidableEq, Repr

/-- Model of `GameSelector.loadGame(game)`: validate (via
`gameValidator.validateGame`, which just forwards `game.validateRules()`
— total here, so its catch path is dead); on failure render the error
list and stop.  Otherwise store the game, discover and publish an initial
handle, render the loading UI, invoke the bundle loader (`now` is the
`Date.now()` at the script-URL construction), and on `onload` rerun
discovery against the post-load window `wAfter`, replacing the published
handle when the rerun yields a non-identical object; on `onerror` render
the load-failure UI. -/
def loadGame (st : SelectorState) (game : Game) (w : WindowState)
    (now : Nat) (outcome : ScriptOutcome) (wAfter : WindowState) :
    SelectorState × List Effect :=
  let validation := validateRules game.rules
  if !validation.valid then
    (st, [.renderValidationError (displayNameOf game.name) validation.errors])
  else
    let st := { st with currentGame := some game }
    let h := findGameInstance w game
    let st :=
      { st with
        currentGameInstance := some h
        windowCurrentGameInstance := some h }
    let (req, result) := GameLoader.loadGame st.s3BaseUrl game now outcome
    match result with
    | .error _ =>
        (st, [.renderLoadingUI game.name, .requestScript req,
          .renderLoadError (displayNameOf game.name)])
    | .ok _ =>
        let updated := findGameInstance wAfter game
        let st :=
          if jsIdentical updated h then st
          else
            { st with
              currentGameInstance := some updated
              windowCurrentGameInstance := some updated }
        (st, [.renderLoadingUI game.name, .requestScript req,
          .addGameControls game.name])

end GameSelector

end GameSpec

/-!
## Helper lemmas
-/

namespace GameSpec
namespace SessionManager

theorem capHistory_eq_drop (h : List GameSession) :
    capHistory h = h.drop (h.length - 200) := by
  induction h using capHistory.induct with
  | case1 h hgt ih =>
      rw [capHistory, if_pos hgt, ih]
      cases h with
      | nil => simp at hgt
      | cons a t =>
          have he : t.length + 1 - 200 = (t.length - 200) + 1 := by
            simp [List.length_cons] at hgt; omega
          simp only [List.tail_cons, List.length_cons, he, List.drop_succ_cons]
  | case2 h hle =>
      rw [capHistory, if_neg hle]
      have : h.length - 200 = 0 := by omega
      simp [this]

theorem length_capHistory (h : List GameSession) :
    (capHistory h).length = min h.length 200 := by
  rw [capHistory_eq_drop, List.length_drop]; omega

theorem mem_capHistory {r : GameSession} {h : List GameSession}
    (hr : r ∈ capHistory h) : r ∈ h := by
  rw [capHistory_eq_drop] at hr
  exact List.drop_subset _ _ hr

theorem capHistory_of_le {h : List GameSession} (hle : h.length ≤ 200) :
    capHistory h = h := by
  rw [capHistory_eq_drop]
  have : h.length - 200 = 0 := by omega
  simp [this]

end SessionManager
end GameSpec

namespace GameSpec

theorem drop_last_append {α : Type} (n : Nat) (a b : List α) :
    (a.drop (a.length - n) ++ b).drop ((a.drop (a.length - n) ++ b).length - n)
      = (a ++ b).drop ((a ++ b).length - n) := by
  simp only [List.drop_append_eq_append_drop, List.drop_drop,
    List.length_append, List.length_drop]
  have e1 : a.length - n + (a.length - (a.length - n) + b.length - n) =
      a.length + b.length - n := by omega
  have e2 : a.length - (a.length - n) + b.length - n -
      (a.length - (a.length - n)) = a.length + b.length - n - a.length := by
    omega
  rw [e1, e2]

theorem runRulesLoop_eq (acc : List String) (rs : List GameLoadRule) :
    runRulesLoop acc rs = acc ++ rs.filterMap ruleErrorEntry := by
  induction rs generalizing acc with
  | nil => simp [runRulesLoop]
  | cons r rs ih =>
      cases ho : r.outcome with
      | ok v =>
          cases v with
          | true => simp [runRulesLoop, ho, ih, ruleErrorEntry]
          | false => simp [runRulesLoop, ho, ih, ruleErrorEntry]
      | throws msg => simp [runRulesLoop, ho, ih, ruleErrorEntry]

end GameSpec

namespace GameSpec
namespace SessionManager

theorem applyOp_historySlot (m : ManagerState) (op : Op) :
    (applyOp m op).historySlot =
      match op, m.currentSession with
      | .endSession status now, some s =>
          capHistory (m.historySlot ++ [finalizeSession s status now])
      | _, _ => m.historySlot := by
  cases op with
  | newManager now =>
      simp only [applyOp, newManager, loadPersistedSession]
      cases m.sessionSlot <;> simp
      split <;> rfl
  | startSession gid tid diff now rand =>
      simp [applyOp, startSession, persistSession]
  | updateScore points isCorrect now =>
      cases hc : m.currentSession <;>
        simp [applyOp, updateScore, persistSession, hc]
  | pauseSession now =>
      cases hc : m.currentSession <;>
        simp [applyOp, pauseSession, persistSession, hc]
  | resumeSession now =>
      cases hc : m.currentSession <;>
        simp [applyOp, resumeSession, persistSession, hc]
  | endSession status now =>
      cases hc : m.currentSession <;>
        simp [applyOp, endSession, saveToHistory, hc]

theorem applyOp_currentSession_newManager (m : ManagerState) (now : Nat) :
    (applyOp m (.newManager now)).currentSession = none ∨
      (applyOp m (.newManager now)).currentSession = m.sessionSlot := by
  simp only [applyOp, newManager, loadPersistedSession]
  cases m.sessionSlot with
  | none => simp
  | some p => simp; split <;> simp

end SessionManager
end GameSpec

namespace GameSpec
namespace SessionManager

theorem inv_applyOp {m : ManagerState} (hm : Inv m) (op : Op) :
    Inv (applyOp m op) := by
  obtain ⟨hcur, hslot, hhist, hlen⟩ := hm
  cases op with
  | newManager now =>
      cases hp : m.sessionSlot with
      | none =>
          have he : applyOp m (.newManager now) =
              { m with currentSession := none } := by
            simp [applyOp, newManager, loadPersistedSession, hp]
          rw [he]
          exact ⟨by simp, hslot, hhist, hlen⟩
      | some p =>
          by_cases hf : (now : Int) - (p.startTime : Int) < 86400000
          · have he : applyOp m (.newManager now) =
                { m with currentSession := some p } := by
              simp [applyOp, newManager, loadPersistedSession, hp, hf]
            rw [he]
            refine ⟨?_, hslot, hhist, hlen⟩
            intro s hs
            simp at hs
            exact hs ▸ hslot p hp
          · have he : applyOp m (.newManager now) =
                { m with currentSession := none } := by
              simp [applyOp, newManager, loadPersistedSession, hp, hf]
            rw [he]
            exact ⟨by simp, hslot, hhist, hlen⟩
  | startSession gid tid diff now rand =>
      refine ⟨?_, ?_, hhist, hlen⟩ <;>
        · intro s hs
          simp [applyOp, startSession, persistSession] at hs
          subst hs
          exact Or.inl rfl
  | updateScore points isCorrect now =>
      cases hc : m.currentSession with
      | none =>
          have he : applyOp m (.updateScore points isCorrect now) = m := by
            simp [applyOp, updateScore, hc]
          rw [he]
          exact ⟨hcur, hslot, hhist, hlen⟩
      | some s =>
          have hls := hcur s hc
          refine ⟨?_, ?_, ?_, ?_⟩
          · intro s2 hs2
            simp [applyOp, updateScore, persistSession, hc] at hs2
            subst hs2
            exact hls
          · intro s2 hs2
            simp [applyOp, updateScore, persistSession, hc] at hs2
            subst hs2
            exact hls
          · intro r hr
            simp only [applyOp, updateScore, persistSession, hc] at hr
            exact hhist r hr
          · simpa only [applyOp, updateScore, persistSession, hc] using hlen
  | pauseSession now =>
      cases hc : m.currentSession with
      | none =>
          have he : applyOp m (.pauseSession now) = m := by
            simp [applyOp, pauseSession, hc]
          rw [he]
          exact ⟨hcur, hslot, hhist, hlen⟩
      | some s =>
          refine ⟨?_, ?_, ?_, ?_⟩
          · intro s2 hs2
            simp [applyOp, pauseSession, persistSession, hc] at hs2
            subst hs2
            exact Or.inr rfl
          · intro s2 hs2
            simp [applyOp, pauseSession, persistSession, hc] at hs2
            subst hs2
            exact Or.inr rfl
          · intro r hr
            simp only [applyOp, pauseSession, persistSession, hc] at hr
            exact hhist r hr
          · simpa only [applyOp, pauseSession, persistSession, hc] using hlen
  | resumeSession now =>
      cases hc : m.currentSession with
      | none =>
          have he : applyOp m (.resumeSession now) = m := by
            simp [applyOp, resumeSession, hc]
          rw [he]
          exact ⟨hcur, hslot, hhist, hlen⟩
      | some s =>
          refine ⟨?_, ?_, ?_, ?_⟩
          · intro s2 hs2
            simp [applyOp, resumeSession, persistSession, hc] at hs2
            subst hs2
            exact Or.inl rfl
          · intro s2 hs2
            simp [applyOp, resumeSession, persistSession, hc] at hs2
            subst hs2
            exact Or.inl rfl
          · intro r hr
            simp only [applyOp, resumeSession, persistSession, hc] at hr
            exact hhist r hr
          · simpa only [applyOp, resumeSession, persistSession, hc] using hlen
  | endSession status now =>
      cases hc : m.currentSession with
      | none =>
          have he : applyOp m (.endSession status now) = m := by
            simp [applyOp, endSession, hc]
          rw [he]
          exact ⟨hcur, hslot, hhist, hlen⟩
      | some s =>
          refine ⟨?_, ?_, ?_, ?_⟩
          · intro s2 hs2
            simp [applyOp, endSession, hc, saveToHistory] at hs2
          · intro s2 hs2
            simp only [applyOp, endSession, hc, saveToHistory] at hs2
            exact hslot s2 hs2
          · intro r hr
            simp only [applyOp, endSession, hc, saveToHistory] at hr
            have hmem := mem_capHistory hr
            rcases List.mem_append.mp hmem with h1 | h2
            · exact hhist r h1
            · simp at h2
              subst h2
              cases status <;>
                simp [finalizeSession, EndStatus.toStatus, terminalStatus]
          · simp only [applyOp, endSession, hc, saveToHistory]
            rw [length_capHistory]
            omega

theorem inv_empty : Inv {} := by
  refine ⟨?_, ?_, ?_, ?_⟩ <;> simp [Inv]

theorem inv_run (ops : List Op) : Inv (run ops) := by
  suffices h : ∀ (m : ManagerState), Inv m → Inv (ops.foldl applyOp m) from
    h {} inv_empty
  induction ops with
  | nil => intro m hm; simpa using hm
  | cons op rest ih =>
      intro m hm
      rw [List.foldl_cons]
      exact ih _ (inv_applyOp hm op)

end SessionManager
end GameSpec

namespace GameSpec
namespace SessionManager

theorem endedRecords_cons (m : ManagerState) (op : Op) (ops : List Op) :
    endedRecords m (op :: ops) =
      match op, m.currentSession with
      | .endSession status now, some s =>
          finalizeSession s status now :: endedRecords (applyOp m op) ops
      | _, _ => endedRecords (applyOp m op) ops := by
  simp only [endedRecords]

theorem foldl_historySlot (ops : List Op) :
    ∀ (m : ManagerState), m.historySlot.length ≤ 200 →
      (ops.foldl applyOp m).historySlot =
        (m.historySlot ++ endedRecords m ops).drop
          ((m.historySlot ++ endedRecords m ops).length - 200) := by
  induction ops with
  | nil =>
      intro m hm
      have hz : m.historySlot.length - 200 = 0 := by omega
      simp [endedRecords, hz]
  | cons op rest ih =>
      intro m hm
      rw [List.foldl_cons, endedRecords_cons]
      cases op with
      | endSession status now =>
          cases hc : m.currentSession with
          | none =>
              have hne : (applyOp m (.endSession status now)).historySlot =
                  m.historySlot := by
                rw [applyOp_historySlot]; simp [hc]
              rw [ih _ (by rw [hne]; exact hm), hne]
          | some s =>
              have hhist2 : (applyOp m (.endSession status now)).historySlot =
                  capHistory (m.historySlot ++ [finalizeSession s status now]) := by
                simp [applyOp, endSession, saveToHistory, hc]
              have hlen2 :
                  (applyOp m (.endSession status now)).historySlot.length ≤ 200 := by
                rw [hhist2, length_capHistory]; omega
              rw [ih _ hlen2, hhist2, capHistory_eq_drop]
              simp only [hc]
              rw [drop_last_append]
              simp [List.append_assoc]
      | newManager now =>
          have hne : (applyOp m (.newManager now)).historySlot = m.historySlot := by
            rw [applyOp_historySlot]
          rw [ih _ (by rw [hne]; exact hm), hne]
      | startSession a b c d e =>
          have hne : (applyOp m (.startSession a b c d e)).historySlot =
              m.historySlot := by
            rw [applyOp_historySlot]
          rw [ih _ (by rw [hne]; exact hm), hne]
      | updateScore a b c =>
          have hne : (applyOp m (.updateScore a b c)).historySlot =
              m.historySlot := by
            rw [applyOp_historySlot]
          rw [ih _ (by rw [hne]; exact hm), hne]
      | pauseSession a =>
          have hne : (applyOp m (.pauseSession a)).historySlot = m.historySlot := by
            rw [applyOp_historySlot]
          rw [ih _ (by rw [hne]; exact hm), hne]
      | resumeSession a =>
          have hne : (applyOp m (.resumeSession a)).historySlot = m.historySlot := by
            rw [applyOp_historySlot]
          rw [ih _ (by rw [hne]; exact hm), hne]

end SessionManager
end GameSpec

/-!
## Claim theorems
-/

namespace GameSpec

/-- C1: For every attached rule list, `Game.validateRules` runs each rule in
attachment order; a rule resolving `false` or throwing contributes exactly
one error entry (and a throwing rule does not stop the remaining rules, as
the error list equals the order-preserving `filterMap` of per-rule
entries); `valid` is `true` exactly when the accumulated error list is
empty; and validation always resolves, `validateRules` being a total
function. -/
theorem validateRules_spec (rules : List GameLoadRule) :
    (validateRules rules).errors = rules.filterMap ruleErrorEntry ∧
    ((validateRules rules).valid = true ↔ (validateRules rules).errors = []) := by
  constructor
  · simp [validateRules, runRulesLoop_eq]
  · simp [validateRules, runRulesLoop_eq, List.length_eq_zero]

/-- C2: Handle discovery is deterministic with first-match-wins priority: a
`<gameName>Game` global binding wins (even when a `gameInstances[name]`
entry also exists, since the first conjunct holds for every window state);
otherwise the `gameInstances[name]` entry is returned; otherwise a
synthetic mock handle on which all five lifecycle methods are present and
return without throwing. -/
theorem findGameInstance_priority (w : WindowState) (g : Game) :
    (∀ h, w.globalBindings (g.name ++ "Game") = some h →
      GameSelector.findGameInstance w g = .discovered h) ∧
    (w.globalBindings (g.name ++ "Game") = none →
      ∀ insts h, w.gameInstances = some insts → insts g.name = some h →
        GameSelector.findGameInstance w g = .discovered h) ∧
    (w.globalBindings (g.name ++ "Game") = none →
      (w.gameInstances = none ∨
        ∃ insts, w.gameInstances = some insts ∧ insts g.name = none) →
      GameSelector.findGameInstance w g = .mockFor (displayNameOf g.name) ∧
      ∀ mo a, (GameSelector.findGameInstance w g).methodOf mo a =
        some (Except.ok ())) := by
  refine ⟨?_, ?_, ?_⟩
  · intro h hg
    simp [GameSelector.findGameInstance, hg]
  · intro hg insts h hi hk
    simp [GameSelector.findGameInstance, hg, hi, hk]
  · intro hg hi
    have hm : GameSelector.findGameInstance w g = .mockFor (displayNameOf g.name) := by
      rcases hi with hi | ⟨insts, hi, hk⟩
      · simp [GameSelector.findGameInstance, hg, hi]
      · simp [GameSelector.findGameInstance, hg, hi, hk]
    exact ⟨hm, fun mo a => by rw [hm]; rfl⟩

/-- C2 witness: with both a `triviaGame` global and a `gameInstances.trivia`
entry present, discovery returns the global; with neither present it
returns the mock for `Trivia`. -/
theorem findGameInstance_priority_witness :
    GameSelector.findGameInstance
      { globalBindings := fun k => if k = "triviaGame" then some ⟨1⟩ else none
        gameInstances := some fun k => if k = "trivia" then some ⟨2⟩ else none }
      { name := "trivia", baseUrl := "b", emoji := "e", rules := [] } =
      .discovered ⟨1⟩ ∧
    GameSelector.findGameInstance
      { globalBindings := fun _ => none, gameInstances := none }
      { name := "trivia", baseUrl := "b", emoji := "e", rules := [] } =
      .mockFor "Trivia" := by
  constructor
  · exact (findGameInstance_priority _ _).1 ⟨1⟩ (by simp)
  · have h := ((findGameInstance_priority
      { globalBindings := fun _ => none, gameInstances := none }
      { name := "trivia", baseUrl := "b", emoji := "e", rules := [] }).2.2
        rfl (Or.inl rfl)).1
    have hd : displayNameOf "trivia" = "Trivia" := by decide
    rw [hd] at h
    exact h

/-- C3: When validation reports invalid, `GameSelector.loadGame` renders
the error list and stops: the returned state equals the input state (no
current game stored, no handle computed or published), and the only
effect is the validation-error rendering — in particular no script request
reaches the bundle loader. -/
theorem loadGame_stops_on_invalid (st : GameSelector.SelectorState) (g : Game)
    (w : WindowState) (now : Nat) (outcome : ScriptOutcome) (wAfter : WindowState)
    (hv : (validateRules g.rules).valid = false) :
    GameSelector.loadGame st g w now outcome wAfter =
      (st, [.renderValidationError (displayNameOf g.name)
        (validateRules g.rules).errors]) := by
  simp [GameSelector.loadGame, hv]

/-- C3 witness: a game with one failing rule leaves the orchestrator state
untouched and renders exactly the error list. -/
theorem loadGame_stops_on_invalid_witness :
    GameSelector.loadGame { s3BaseUrl := "https://x" }
      { name := "gbad", baseUrl := "b", emoji := "e",
        rules := [{ outcome := .ok false, errorMessage := "E", ctorName := "R" }] }
      { globalBindings := fun _ => none, gameInstances := none } 5 .onload
      { globalBindings := fun _ => none, gameInstances := none } =
      ({ s3BaseUrl := "https://x" },
        [.renderValidationError "Gbad" ["E"]]) :=
  (loadGame_stops_on_invalid _ _ _ _ _ _ (by decide)).trans (by decide)

/-- C5 (amended): the Bundle Loader requests
`${loaderS3BaseUrl}/${name}/load-app-scripts.js?t=<now>` — built from the
loader's configured base URL, not the descriptor's `baseUrl` field — with
`t` the `Date.now()` reading at call time, so calls at different clock
readings carry different `t`; the promise resolves on `onload` and rejects
on `onerror` with a message identifying the game name. -/
theorem gameLoader_request (s3 : String) (g : Game) (now : Nat)
    (outcome : ScriptOutcome) :
    (GameLoader.loadGame s3 g now outcome).1 =
      { url := s3 ++ "/" ++ g.name ++ "/load-app-scripts.js?t=" ++ toString now
        t := now } ∧
    (∀ now2 outcome2, now ≠ now2 →
      (GameLoader.loadGame s3 g now outcome).1.t ≠
        (GameLoader.loadGame s3 g now2 outcome2).1.t) ∧
    (outcome = .onload → (GameLoader.loadGame s3 g now outcome).2 = .ok ()) ∧
    (outcome = .onerror →
      (GameLoader.loadGame s3 g now outcome).2 =
        .error ("Failed to load " ++ g.name)) := by
  refine ⟨rfl, ?_, ?_, ?_⟩
  · intro now2 outcome2 hne
    simpa [GameLoader.loadGame] using hne
  · rintro rfl; rfl
  · rintro rfl; rfl

/-- C5 witness: two calls at clock readings 5 and 6 carry different `t`
parameters, and a failing load rejects naming the game. -/
theorem gameLoader_request_witness :
    (GameLoader.loadGame "https://x"
        { name := "trivia", baseUrl := "https://x/trivia", emoji := "e", rules := [] }
        5 .onerror).1.t ≠
      (GameLoader.loadGame "https://x"
        { name := "trivia", baseUrl := "https://x/trivia", emoji := "e", rules := [] }
        6 .onload).1.t ∧
    (GameLoader.loadGame "https://x"
        { name := "trivia", baseUrl := "https://x/trivia", emoji := "e", rules := [] }
        5 .onerror).2 = .error "Failed to load trivia" := by
  constructor
  · exact (gameLoader_request "https://x" _ 5 .onerror).2.1 6 .onload (by decide)
  · exact (gameLoader_request "https://x"
      { name := "trivia", baseUrl := "https://x/trivia", emoji := "e", rules := [] }
      5 .onerror).2.2.2 rfl

/-- C5 counterexample: a hub-synthesized descriptor has
`baseUrl = "https://x/trivia"`, yet the loader requests
`https://x/trivia/load-app-scripts.js?t=5`, which differs from the
claim's `${b}/${n}/load-app-scripts.js?t=…` formula (that formula would
double the name segment). -/
theorem gameLoader_url_ignores_descriptor_baseUrl :
    (createGameFromHubData "https://x" true
        { name := some "trivia", id := "trivia", emoji := none }).baseUrl =
      "https://x/trivia" ∧
    (GameLoader.loadGame "https://x"
        (createGameFromHubData "https://x" true
          { name := some "trivia", id := "trivia", emoji := none })
        5 .onload).1.url = "https://x/trivia/load-app-scripts.js?t=5" ∧
    (GameLoader.loadGame "https://x"
        (createGameFromHubData "https://x" true
          { name := some "trivia", id := "trivia", emoji := none })
        5 .onload).1.url ≠
      (createGameFromHubData "https://x" true
          { name := some "trivia", id := "trivia", emoji := none }).baseUrl ++ "/" ++
        (createGameFromHubData "https://x" true
          { name := some "trivia", id := "trivia", emoji := none }).name ++
        "/load-app-scripts.js?t=" ++ toString 5 := by
  refine ⟨rfl, by decide, by decide⟩

/-- C9 (amended): the hub app's connectivity rule resolves `true` for every
game regardless of reachability, and connectivity problems surface later
as the Bundle Loader's `onerror` rejection; the core-gaming-sdk variant,
however, resolves `false` exactly when its primary probe throws and its
fallback fetch resolves non-ok. -/
theorem connectivity_rule_behaviour (g : Game) (env : Sdk.ConnectivityEnv) :
    hubConnectivityValidate g = true ∧
    (Sdk.connectivityValidate env = false ↔
      (∃ msg, env.primary = .error msg) ∧ env.fallback = .ok false) ∧
    (∀ s3 now, (GameLoader.loadGame s3 g now .onerror).2 =
      .error ("Failed to load " ++ g.name)) := by
  refine ⟨rfl, ?_, fun s3 now => rfl⟩
  constructor
  · intro hv
    cases hp : env.primary with
    | ok u => simp [Sdk.connectivityValidate, hp] at hv
    | error msg =>
        cases hf : env.fallback with
        | ok okFlag =>
            simp [Sdk.connectivityValidate, hp, hf] at hv
            subst hv
            refine ⟨⟨msg, ?_⟩, ?_⟩ <;> simp [hp, hf]
        | error e => simp [Sdk.connectivityValidate, hp, hf] at hv
  · rintro ⟨⟨msg, hp⟩, hf⟩
    simp [Sdk.connectivityValidate, hp, hf]

/-- C9 counterexample: with the primary probe throwing (CORS) and the
fallback endpoint answering non-ok, the core-gaming-sdk connectivity rule
resolves `false`, so the claim's "always resolves true" fails for that
variant. -/
theorem sdk_connectivity_can_fail :
    Sdk.connectivityValidate { primary := .error "CORS", fallback := .ok false } =
      false := rfl

end GameSpec

namespace GameSpec
namespace SessionManager

/-- C4 (amended): across every operation sequence — including constructing
a new `SessionManager` over existing storage — the current session's
status is never terminal, every single operation moves the status of the
current session only along the allowed edges, and history only ever grows
(capped) by freshly finalized, terminal-status records.  Within one
manager instance the claimed state machine therefore holds; the claim's
global "terminal forever" reading fails only through the stale-snapshot
resurrection exhibited by the counterexample. -/
theorem status_transitions (ops : List Op) (op : Op) :
    (∀ s, (run ops).currentSession = some s → liveStatus s.status) ∧
    (∀ s s2, (run ops).currentSession = some s →
      (applyOp (run ops) op).currentSession = some s2 →
      s.sessionId = s2.sessionId → statusEdge s.status s2.status) ∧
    (∃ tail, (applyOp (run ops) op).historySlot =
        capHistory ((run ops).historySlot ++ tail) ∧
      ∀ r ∈ tail, terminalStatus r.status) := by
  obtain ⟨hcur, hslot, hhist, hlen⟩ := inv_run ops
  refine ⟨hcur, ?_, ?_⟩
  · intro s s2 hs hs2 hid
    have h1 := hcur s hs
    have h2 : liveStatus s2.status := (inv_applyOp (inv_run ops) op).1 s2 hs2
    rcases h1 with e1 | e1 <;> rcases h2 with e2 | e2 <;> rw [statusEdge, e1, e2] <;>
      decide
  · cases op with
    | endSession status now =>
        cases hc : (run ops).currentSession with
        | none =>
            refine ⟨[], ?_, by simp⟩
            rw [applyOp_historySlot]
            simp [hc, capHistory_of_le hlen]
        | some s =>
            refine ⟨[finalizeSession s status now], ?_, ?_⟩
            · rw [applyOp_historySlot]
              simp [hc]
            · intro r hr
              simp at hr
              subst hr
              cases status <;>
                simp [finalizeSession, EndStatus.toStatus, terminalStatus]
    | newManager now =>
        refine ⟨[], ?_, by simp⟩
        rw [applyOp_historySlot]
        simp [capHistory_of_le hlen]
    | startSession a b c d e =>
        refine ⟨[], ?_, by simp⟩
        rw [applyOp_historySlot]
        simp [capHistory_of_le hlen]
    | updateScore a b c =>
        refine ⟨[], ?_, by simp⟩
        rw [applyOp_historySlot]
        simp [capHistory_of_le hlen]
    | pauseSession a =>
        refine ⟨[], ?_, by simp⟩
        rw [applyOp_historySlot]
        simp [capHistory_of_le hlen]
    | resumeSession a =>
        refine ⟨[], ?_, by simp⟩
        rw [applyOp_historySlot]
        simp [capHistory_of_le hlen]

/-- C4 witness: pausing the freshly started sample session is an allowed
`active → paused` edge. -/
theorem status_transitions_witness :
    statusEdge SessionStatus.active SessionStatus.paused :=
  (status_transitions [.startSession "g" none none 1000 "r"]
      (.pauseSession 2000)).2.1
    sampleSession
    { sampleSession with
      status := .paused
      events := sampleSession.events ++ [{ type := .pause, timestamp := 2000 }] }
    (by decide) (by decide) rfl

/-- C4 counterexample: after `startSession` (t=1000), `endSession
'completed'` (t=2000) and constructing a new `SessionManager` (t=3000),
the history holds the session `session_1000_r` with terminal status
`completed`, yet the very same session id is current again with status
`active` — a subsequent operation revived a completed session, so the
claimed "terminal forever" property fails as stated. -/
theorem completed_session_resurrected :
    ((run [.startSession "g" none none 1000 "r", .endSession .completed 2000,
        .newManager 3000]).historySlot.map fun r => (r.sessionId, r.status)) =
      [("session_1000_r", SessionStatus.completed)] ∧
    ((run [.startSession "g" none none 1000 "r", .endSession .completed 2000,
        .newManager 3000]).currentSession.map fun s => (s.sessionId, s.status)) =
      some ("session_1000_r", SessionStatus.active) := by
  constructor <;>
    · simp only [run, List.foldl, applyOp, startSession, persistSession, endSession,
        saveToHistory, newManager, loadPersistedSession, capHistory_eq_drop]
      norm_num
      decide

/-- C6: `startSession` → `updateScore(10, true)` → `updateScore(5, false)`
leaves the current session with `score` equal to the literal sum 15 of all
points passed, `maxScore` 15 (the running maximum of the score), `streak`
reset to 0 by the incorrect call, `attempts` 2, `correctAnswers` 1, and
exactly one `correct`/`incorrect` event per call carrying the point
delta. -/
theorem updateScore_sequence (m : ManagerState) (gid : String)
    (tid diff : Option String) (t0 t1 t2 : Nat) (r : String) :
    (updateScore (updateScore (startSession m gid tid diff t0 r) 10 true t1)
        5 false t2).currentSession =
      some
        { sessionId := "session_" ++ toString t0 ++ "_" ++ r
          gameId := gid
          tenantId := tid
          playerId := "player"
          startTime := t0
          status := .active
          score := 15
          maxScore := 15
          streak := 0
          attempts := 2
          correctAnswers := 1
          totalQuestions := 0
          difficulty := diff
          duration := 0
          events := [{ type := .start, timestamp := t0 },
            { type := .correct, timestamp := t1, data := some (.points 10) },
            { type := .incorrect, timestamp := t2, data := some (.points 5) }] } := by
  simp [startSession, updateScore, persistSession]

/-- C7: for every active session, `endSession('abandoned')` clears the
current session, appends to history the record finalized with `endTime`,
status `abandoned`, `duration = floor((endTime − startTime)/1000)` — a
non-negative integer whenever the clock did not run backwards — and
exactly one `end` event carrying the final status. -/
theorem endSession_abandoned (m : ManagerState) (s : GameSession) (now : Nat)
    (hc : m.currentSession = some s) (hn : s.startTime ≤ now) :
    getCurrentSession (endSession m .abandoned now) = none ∧
    (endSession m .abandoned now).historySlot =
      capHistory (m.historySlot ++ [finalizeSession s .abandoned now]) ∧
    (finalizeSession s .abandoned now).endTime = some now ∧
    (finalizeSession s .abandoned now).status = .abandoned ∧
    (finalizeSession s .abandoned now).duration =
      Int.fdiv ((now : Int) - (s.startTime : Int)) 1000 ∧
    0 ≤ (finalizeSession s .abandoned now).duration ∧
    (finalizeSession s .abandoned now).events =
      s.events ++
        [{ type := .end_, timestamp := now, data := some (.finalStatus .abandoned) }] := by
  refine ⟨?_, ?_, rfl, rfl, rfl, ?_, ?_⟩
  · simp [endSession, getCurrentSession, hc]
  · simp [endSession, saveToHistory, hc]
  · exact Int.fdiv_nonneg (by omega) (by norm_num)
  · rfl

/-- C7 witness: abandoning the sample session started at t=1000 at t=2500
clears the current session and yields a non-negative duration. -/
theorem endSession_abandoned_witness :
    getCurrentSession
      (endSession (run [.startSession "g" none none 1000 "r"]) .abandoned 2500) =
      none ∧
    0 ≤ (finalizeSession sampleSession .abandoned 2500).duration := by
  have h := endSession_abandoned (run [.startSession "g" none none 1000 "r"])
    sampleSession 2500 (by decide) (by decide)
  exact ⟨h.1, h.2.2.2.2.2.1⟩

/-- C8: the stored history after any operation sequence is exactly the
suffix of the finalized-session list that drops all but the most recent
200 records — so its length is `min N 200` for `N` finished sessions,
eviction is oldest-first, and insertion order is preserved. -/
theorem history_capped (ops : List Op) :
    (run ops).historySlot =
      (endedRecords {} ops).drop ((endedRecords {} ops).length - 200) ∧
    (run ops).historySlot.length = min (endedRecords {} ops).length 200 := by
  have h := foldl_historySlot ops {} (by simp)
  have h2 : (run ops).historySlot =
      (endedRecords {} ops).drop ((endedRecords {} ops).length - 200) := by
    simpa [run] using h
  refine ⟨h2, ?_⟩
  rw [h2, List.length_drop]
  omega

/-- C10 (amended): `endSession` leaves the persisted in-flight-session slot
untouched, so what remains stored is the **last pre-end snapshot** (not
the finished record); a new `SessionManager` constructed within 24 hours
of that snapshot's `startTime` loads it back as the current session, so
`getCurrentSession()` returns the stale session rather than null. -/
theorem endSession_keeps_persisted_snapshot (m : ManagerState)
    (status : EndStatus) (now : Nat) :
    (endSession m status now).sessionSlot = m.sessionSlot ∧
    (∀ (p : GameSession) (now2 : Nat),
      (endSession m status now).sessionSlot = some p →
      (now2 : Int) - (p.startTime : Int) < 24 * 60 * 60 * 1000 →
      getCurrentSession (newManager (endSession m status now) now2) = some p) := by
  have hslot : (endSession m status now).sessionSlot = m.sessionSlot := by
    cases hc : m.currentSession with
    | none => simp [endSession, hc]
    | some s => simp [endSession, saveToHistory, hc]
  refine ⟨hslot, ?_⟩
  intro p now2 hp hf
  have hf2 : (now2 : Int) - (p.startTime : Int) < 86400000 := by omega
  simp [newManager, loadPersistedSession, getCurrentSession, hp, hf2]

/-- C10 amended witness: after ending the sample session, a manager
constructed at t=3000 resurrects the stale snapshot as current. -/
theorem endSession_keeps_persisted_snapshot_witness :
    getCurrentSession
      (newManager
        (endSession (run [.startSession "g" none none 1000 "r"]) .completed 2000)
        3000) =
      some sampleSession :=
  (endSession_keeps_persisted_snapshot
    (run [.startSession "g" none none 1000 "r"]) .completed 2000).2
    sampleSession 3000 (by decide) (by decide)

/-- C10 counterexample: after `startSession` then `endSession 'completed'`,
the in-flight-session slot still holds the session with status `active`
and no `endTime` — the **pre-end** snapshot, not the finished record the
claim describes — and the manager constructed at t=3000 accordingly loads
a session whose status is `active`, not `completed`. -/
theorem ended_session_not_stored_as_finished :
    ((run [.startSession "g" none none 1000 "r",
        .endSession .completed 2000]).sessionSlot.map
      fun s => (s.sessionId, s.status, s.endTime)) =
      some ("session_1000_r", SessionStatus.active, none) ∧
    ((run [.startSession "g" none none 1000 "r", .endSession .completed 2000,
        .newManager 3000]).currentSession.map fun s => (s.sessionId, s.status)) =
      some ("session_1000_r", SessionStatus.active) := by
  decide

end SessionManager
end GameSpec
